import Mathlib

/-!
Verification of `sphinxwrapper/pocketsphinx_wrap.py`: a shallow embedding of
the `PocketSphinx` session layer (utterance state tracker, audio frame
processor, batch driver, keyword-search provisioner, callback registry),
with theorems settling the specification's claims.

The decoder collaborator (`pocketsphinx.Decoder`) is external: its responses
are modelled as oracle inputs (`in_speech` answer per buffer, the hypothesis
value available at utterance end, and whether `set_kws` raises), and the
calls made to it are recorded in an explicit event trace.
-/

/-- The three sentinel values `_UTT_IDLE`, `_UTT_STARTED`, `_UTT_ENDED`
(`pocketsphinx_wrap.py` lines 28-30). -/
inductive UttState where
  | idle
  | started
  | ended
deriving DecidableEq, Repr

/-- A hypothesis as returned by the decoder's `hyp()`: either Python `None`
or a transcription string.  Python truthiness of such a value is
`hypTruthy` below. -/
abbrev Hyp := Option String

/-- Python truthiness of a hypothesis value: `None` and the empty string are
falsy, a non-empty string is truthy (used by `batch_process`'s
`if processing_result:` check, line 102). -/
def hypTruthy : Hyp → Bool
  | none => false
  | some s => !s.isEmpty

/-- Observable calls made during processing: calls into the decoder
collaborator and invocations of the user-supplied callbacks. -/
inductive Event where
  | decStartUtt
  | decEndUtt
  | decProcessRaw (buf : Nat) (no_search full_utterance : Bool)
  | decGetInSpeech (result : Bool)
  | decHyp (h : Hyp)
  | cbSpeechStart
  | cbHypothesis (h : Hyp)
deriving DecidableEq, Repr

/-- The mutable state of a `PocketSphinx` session object: the two callback
slots (`_speech_start_callback`, `_hypothesis_callback`, each holding
`None` or a callable, the latter modelled by its identity) and the
utterance state sentinel `_utterance_state`. -/
structure PS where
  speech_start_callback : Option Nat
  hypothesis_callback : Option Nat
  utterance_state : UttState
deriving DecidableEq, Repr

/-- State set up by `__init__` (lines 48-50): both callback slots `None`,
utterance state `_UTT_ENDED`. -/
def PS.init : PS :=
  { speech_start_callback := none
    hypothesis_callback := none
    utterance_state := UttState.ended }

/-- `utt_idle` property (line 140). -/
def PS.utt_idle (s : PS) : Bool :=
  s.utterance_state == UttState.idle

/-- `utt_started` property (line 149). -/
def PS.utt_started (s : PS) : Bool :=
  s.utterance_state == UttState.started

/-- `utt_ended` property (line 168). -/
def PS.utt_ended (s : PS) : Bool :=
  s.utterance_state == UttState.ended

/-- `start_utt` (lines 123-131): if the state is ended, call the decoder's
`start_utt` and set the state to idle; otherwise do nothing.  Returns the
new session state and the decoder calls made. -/
def PS.start_utt (s : PS) : PS × List Event :=
  if s.utt_ended then
    ({ s with utterance_state := UttState.idle }, [Event.decStartUtt])
  else
    (s, [])

/-- `end_utt` (lines 151-160): if the state is not ended, call the decoder's
`end_utt` and set the state to ended; otherwise do nothing. -/
def PS.end_utt (s : PS) : PS × List Event :=
  if !s.utt_ended then
    ({ s with utterance_state := UttState.ended }, [Event.decEndUtt])
  else
    (s, [])

/-- Alias `start_utterance = start_utt` (line 172). -/
def PS.start_utterance (s : PS) : PS × List Event :=
  s.start_utt

/-- Alias `end_utterance = end_utt` (line 171). -/
def PS.end_utterance (s : PS) : PS × List Event :=
  s.end_utt

/-- `get_in_speech` (lines 107-121): query the decoder (whose answer is the
oracle input `in_speech_resp`); if it answers true and the state is idle,
move the state to started; return the decoder's answer unchanged. -/
def PS.get_in_speech (s : PS) (in_speech_resp : Bool) :
    PS × List Event × Bool :=
  let in_speech := in_speech_resp
  if in_speech && s.utt_idle then
    ({ s with utterance_state := UttState.started },
     [Event.decGetInSpeech in_speech], in_speech)
  else
    (s, [Event.decGetInSpeech in_speech], in_speech)

/-- `process_audio` (lines 54-87), translated statement by statement.
`in_speech_resp` is the decoder's answer for this buffer and `hyp_resp` the
hypothesis the decoder would return from `hyp()`.  The result is the new
session state, the trace of decoder/callback calls, and the Python return
value (`none` for Python's implicit `return None`). -/
def PS.process_audio (s0 : PS) (buf : Nat)
    (no_search full_utterance use_callbacks : Bool)
    (in_speech_resp : Bool) (hyp_resp : Hyp) : PS × List Event × Hyp :=
  -- if self.utt_ended: self.start_utt()
  let p1 := if s0.utt_ended then s0.start_utt else (s0, [])
  let s1 := p1.1
  -- self.process_raw(buf, no_search, full_utterance)
  let evRaw := [Event.decProcessRaw buf no_search full_utterance]
  -- was_idle = self.utt_idle  (before get_in_speech)
  let was_idle := s1.utt_idle
  -- in_speech = self.get_in_speech()
  let p2 := s1.get_in_speech in_speech_resp
  let s2 := p2.1
  let in_speech := p2.2.2
  let evPre := p1.2 ++ evRaw ++ p2.2.1
  if in_speech && was_idle && s2.utt_started then
    -- speech start transition
    if use_callbacks && s2.speech_start_callback.isSome then
      (s2, evPre ++ [Event.cbSpeechStart], none)
    else
      (s2, evPre, none)
  else if !in_speech && s2.utt_started then
    -- utterance over: end it and fetch the hypothesis
    let p3 := s2.end_utt
    let s3 := p3.1
    let hyp := hyp_resp
    let evEnd := p3.2 ++ [Event.decHyp hyp]
    if use_callbacks && s3.hypothesis_callback.isSome then
      (s3, evPre ++ evEnd ++ [Event.cbHypothesis hyp], none)
    else if !use_callbacks then
      (s3, evPre ++ evEnd, hyp)
    else
      (s3, evPre ++ evEnd, none)
  else
    (s2, evPre, none)

/-- One batch input: a buffer together with the decoder's oracle responses
for it (`in_speech` answer, hypothesis at utterance end). -/
abbrev BufInput := Nat × Bool × Hyp

/-- The loop body of `batch_process` (lines 95-104), with `result` as the
accumulator.  When `use_callbacks` is true the per-buffer return value is
ignored; otherwise a truthy return value overwrites `result`. -/
def PS.batch_go (s : PS) (no_search full_utterance use_callbacks : Bool) :
    List BufInput → Hyp → PS × List Event × Hyp
  | [], result => (s, [], result)
  | (buf, isp, h) :: rest, result =>
    let p := s.process_audio buf no_search full_utterance use_callbacks isp h
    let result' :=
      if use_callbacks then result
      else if hypTruthy p.2.2 then p.2.2 else result
    let q := PS.batch_go p.1 no_search full_utterance use_callbacks rest result'
    (q.1, p.2.1 ++ q.2.1, q.2.2)

/-- `batch_process` (lines 89-105): run `process_audio` over the buffer
sequence, starting from `result = None`. -/
def PS.batch_process (s : PS) (buffers : List BufInput)
    (no_search full_utterance use_callbacks : Bool) : PS × List Event × Hyp :=
  PS.batch_go s no_search full_utterance use_callbacks buffers none

/-- A Python value passed to a callback-slot setter: `None`, a callable, or
some other (non-callable, non-`None`) object. -/
inductive PyVal where
  | pynone
  | pycallable (id : Nat)
  | pyother (id : Nat)
deriving DecidableEq, Repr

/-- `speech_start_callback` setter (lines 233-237): raise `TypeError` for a
non-callable non-`None` value (leaving the session state with the caller,
unchanged), otherwise store the value in the slot. -/
def PS.set_speech_start_callback (s : PS) (value : PyVal) :
    Except String PS :=
  match value with
  | PyVal.pyother _ => Except.error "value must be callable or None"
  | PyVal.pynone => Except.ok { s with speech_start_callback := none }
  | PyVal.pycallable id => Except.ok { s with speech_start_callback := some id }

/-- `hypothesis_callback` setter (lines 246-250). -/
def PS.set_hypothesis_callback (s : PS) (value : PyVal) :
    Except String PS :=
  match value with
  | PyVal.pyother _ => Except.error "value must be callable or None"
  | PyVal.pynone => Except.ok { s with hypothesis_callback := none }
  | PyVal.pycallable id => Except.ok { s with hypothesis_callback := some id }

/-- A threshold value in a keyword spec: either a `numbers.Number` (carried
with its `str()` rendering) or a non-numeric value (with its `str()`
rendering, used in the error message). -/
inductive Thresh where
  | num (rendering : String)
  | nonnum (rendering : String)
deriving DecidableEq, Repr

/-- Whether a threshold passes `isinstance(threshold, numbers.Number)`. -/
def Thresh.isNum : Thresh → Bool
  | Thresh.num _ => true
  | Thresh.nonnum _ => false

/-- The `kws_list` argument of `set_kws_list`: a dict (association list in
insertion order), a list or tuple of pairs, or `None`. -/
inductive KwsIn where
  | dict (m : List (String × Thresh))
  | list (l : List (String × Thresh))
  | tuple (l : List (String × Thresh))
  | pynone
deriving DecidableEq, Repr

/-- Python truthiness of the `kws_list` argument (the `if not kws_list`
guard, line 189): `None` and empty containers are falsy. -/
def KwsIn.truthy : KwsIn → Bool
  | KwsIn.dict m => !m.isEmpty
  | KwsIn.list l => !l.isEmpty
  | KwsIn.tuple l => !l.isEmpty
  | KwsIn.pynone => false

/-- Python `dict(pairs)` semantics: a duplicate key keeps its first-insertion
position and takes the last value. -/
def pyDict (pairs : List (String × Thresh)) : List (String × Thresh) :=
  pairs.foldl
    (fun acc p =>
      if acc.any (fun q => q.1 == p.1) then
        acc.map (fun q => if q.1 == p.1 then (q.1, p.2) else q)
      else
        acc ++ [p])
    []

/-- The word→threshold mapping `set_kws_list` iterates over after the
`isinstance(kws_list, (list, tuple))` normalization (lines 193-194): a dict
is used as is, a list or tuple goes through `dict(...)`. -/
def KwsIn.normalize : KwsIn → List (String × Thresh)
  | KwsIn.dict m => m
  | KwsIn.list l => pyDict l
  | KwsIn.tuple l => pyDict l
  | KwsIn.pynone => []

/-- The `PocketSphinxError` message raised for a non-numeric threshold
(lines 201-202): `"threshold value of threshold for words words is
not a number"` with both values quoted. -/
def kwsErrMsg (threshold words : String) : String :=
  "threshold value of \x27" ++ threshold ++ "\x27 for words \x27" ++ words ++
    "\x27 is not a number"

/-- An error raised by `set_kws_list`: the threshold validation error, or an
exception propagating out of the decoder's `set_kws`. -/
inductive KwsErr where
  | validation (msg : String)
  | setKwsFailure
deriving DecidableEq, Repr

/-- Outcome of a `set_kws_list` call: whether the temporary file was created,
the lines written to it before the call finished or raised, whether
`os.remove` deleted it, whether the decoder's `set_kws` was called, and the
error raised (if any). -/
structure KwsResult where
  fileCreated : Bool
  fileLines : List String
  fileRemoved : Bool
  setKwsCalled : Bool
  err : Option KwsErr
deriving DecidableEq, Repr

/-- The write loop of `set_kws_list` (lines 199-203): accumulate one line
`"words /threshold/\n"` per pair, stopping with the error message data
(threshold rendering, words) at the first non-numeric threshold. -/
def kwsWriteLoop : List (String × Thresh) → List String →
    List String × Option (String × String)
  | [], acc => (acc, none)
  | (words, Thresh.num r) :: rest, acc =>
    kwsWriteLoop rest (acc ++ [words ++ " /" ++ r ++ "/\n"])
  | (words, Thresh.nonnum r) :: rest, acc =>
    let _ := rest
    (acc, some (r, words))

/-- `set_kws_list` (lines 177-210).  `set_kws_raises` is the oracle for
whether the decoder's `set_kws` call raises.  Note the temporary file is
opened with `delete=False` and removed only by the final `os.remove`
(line 210), which is not reached when the validation error or `set_kws`
raises. -/
def set_kws_list (name : String) (kws_list : KwsIn) (set_kws_raises : Bool) :
    KwsResult :=
  let _ := name
  if !kws_list.truthy then
    { fileCreated := false, fileLines := [], fileRemoved := false,
      setKwsCalled := false, err := none }
  else
    let d := kws_list.normalize
    match kwsWriteLoop d [] with
    | (lines, some (r, words)) =>
      -- the PocketSphinxError propagates before tf.close/set_kws/os.remove
      { fileCreated := true, fileLines := lines, fileRemoved := false,
        setKwsCalled := false, err := some (KwsErr.validation (kwsErrMsg r words)) }
    | (lines, none) =>
      if set_kws_raises then
        -- set_kws raised: os.remove (line 210) is never reached
        { fileCreated := true, fileLines := lines, fileRemoved := false,
          setKwsCalled := true, err := some KwsErr.setKwsFailure }
      else
        { fileCreated := true, fileLines := lines, fileRemoved := true,
          setKwsCalled := true, err := none }

/-- Exactly one of the three utterance-state predicates holds. -/
def PS.exactlyOne (s : PS) : Prop :=
  (s.utt_idle = true ∨ s.utt_started = true ∨ s.utt_ended = true) ∧
    ¬(s.utt_idle = true ∧ s.utt_started = true) ∧
    ¬(s.utt_idle = true ∧ s.utt_ended = true) ∧
    ¬(s.utt_started = true ∧ s.utt_ended = true)

/-- The last truthy (non-`None`, non-empty) hypothesis of a list of
per-buffer `process_audio` return values, or `None` if there is none.
This is the specification's description of what `batch_process` returns
when callbacks are disabled. -/
def specLastNonEmpty (l : List Hyp) : Hyp :=
  (l.filter hypTruthy).getLastD none

/-- The sequence of `process_audio` return values over a buffer sequence
(the hypotheses "produced across the whole sequence"). -/
def PS.processResults (s : PS) (no_search full_utterance use_callbacks : Bool) :
    List BufInput → List Hyp
  | [] => []
  | (buf, isp, h) :: rest =>
    let p := s.process_audio buf no_search full_utterance use_callbacks isp h
    p.2.2 :: PS.processResults p.1 no_search full_utterance use_callbacks rest

/-- Every session state satisfies `exactlyOne`. -/
theorem exactlyOne_of_state (s : PS) : s.exactlyOne := by
  rcases s with ⟨sc, hc, st⟩
  cases st <;>
    simp [PS.exactlyOne, PS.utt_idle, PS.utt_started, PS.utt_ended]

/-- C5: at every point in a session's lifetime exactly one of `utt_idle`,
`utt_started`, `utt_ended` holds, and this is preserved by construction,
`start_utt`, `end_utt`, `get_in_speech`, `process_audio` and
`batch_process`. -/
theorem utterance_state_exactly_one :
    (∀ s : PS, s.exactlyOne) ∧
    PS.init.exactlyOne ∧
    (∀ s : PS, (s.start_utt).1.exactlyOne) ∧
    (∀ s : PS, (s.end_utt).1.exactlyOne) ∧
    (∀ (s : PS) (isp : Bool), (s.get_in_speech isp).1.exactlyOne) ∧
    (∀ (s : PS) (buf : Nat) (ns fu uc isp : Bool) (h : Hyp),
      (s.process_audio buf ns fu uc isp h).1.exactlyOne) ∧
    (∀ (s : PS) (bufs : List BufInput) (ns fu uc : Bool),
      (s.batch_process bufs ns fu uc).1.exactlyOne) :=
  ⟨exactlyOne_of_state, exactlyOne_of_state _, fun _ => exactlyOne_of_state _,
   fun _ => exactlyOne_of_state _, fun _ _ => exactlyOne_of_state _,
   fun _ _ _ _ _ _ _ => exactlyOne_of_state _,
   fun _ _ _ _ _ => exactlyOne_of_state _⟩

/-- C6: `start_utterance` in state Idle or Started, and `end_utterance` in
state Ended, are no-ops (same state, no decoder call, no error), and each
operation is idempotent: the second of two consecutive calls changes
nothing and makes no decoder call. -/
theorem start_end_utterance_idempotent :
    (∀ s : PS, s.utt_idle = true ∨ s.utt_started = true →
      s.start_utterance = (s, [])) ∧
    (∀ s : PS, s.utt_ended = true → s.end_utterance = (s, [])) ∧
    (∀ s : PS, (s.start_utterance.1).start_utterance = (s.start_utterance.1, [])) ∧
    (∀ s : PS, (s.end_utterance.1).end_utterance = (s.end_utterance.1, [])) := by
  refine ⟨fun s hs => ?_, fun s hs => ?_, fun s => ?_, fun s => ?_⟩ <;>
    rcases s with ⟨sc, hc, st⟩ <;> cases st <;>
      first
        | rfl
        | (simp only [PS.utt_idle, PS.utt_started, PS.utt_ended] at hs
           exact absurd hs (by decide))

/-- C6 witness: the no-op clauses at concrete states. -/
theorem start_end_utterance_idempotent_witness :
    PS.start_utterance ⟨none, none, UttState.idle⟩ =
      (⟨none, none, UttState.idle⟩, []) ∧
    PS.end_utterance ⟨none, none, UttState.ended⟩ =
      (⟨none, none, UttState.ended⟩, []) :=
  ⟨start_end_utterance_idempotent.1 _ (Or.inl rfl),
   start_end_utterance_idempotent.2.1 _ rfl⟩

/-- C8: for each callback slot, assigning `None` clears it, assigning a
callable stores it, and assigning a non-callable non-`None` value raises
`TypeError`; in the error case no updated state is produced, so the
previously stored callback value is unchanged. -/
theorem callback_setter_validation : ∀ s : PS,
    (s.set_speech_start_callback PyVal.pynone =
      Except.ok { s with speech_start_callback := none }) ∧
    (∀ id, s.set_speech_start_callback (PyVal.pycallable id) =
      Except.ok { s with speech_start_callback := some id }) ∧
    (∀ id, s.set_speech_start_callback (PyVal.pyother id) =
      Except.error "value must be callable or None") ∧
    (s.set_hypothesis_callback PyVal.pynone =
      Except.ok { s with hypothesis_callback := none }) ∧
    (∀ id, s.set_hypothesis_callback (PyVal.pycallable id) =
      Except.ok { s with hypothesis_callback := some id }) ∧
    (∀ id, s.set_hypothesis_callback (PyVal.pyother id) =
      Except.error "value must be callable or None") :=
  fun _ => ⟨rfl, fun _ => rfl, fun _ => rfl, rfl, fun _ => rfl, fun _ => rfl⟩

/-- C9: a falsy `kws_list` (None, empty dict, empty list or tuple) makes
`set_kws_list` return immediately: no temporary file, no `set_kws` call,
no error. -/
theorem set_kws_list_empty_noop (name : String) (kws : KwsIn) (b : Bool)
    (hf : kws.truthy = false) :
    set_kws_list name kws b =
      { fileCreated := false, fileLines := [], fileRemoved := false,
        setKwsCalled := false, err := none } := by
  unfold set_kws_list
  rw [hf]
  simp

/-- C9 witness: the no-op at each concrete falsy input. -/
theorem set_kws_list_empty_noop_witness :
    set_kws_list "kw" (KwsIn.dict []) false =
      { fileCreated := false, fileLines := [], fileRemoved := false,
        setKwsCalled := false, err := none } ∧
    set_kws_list "kw" (KwsIn.list []) false =
      { fileCreated := false, fileLines := [], fileRemoved := false,
        setKwsCalled := false, err := none } ∧
    set_kws_list "kw" (KwsIn.tuple []) true =
      { fileCreated := false, fileLines := [], fileRemoved := false,
        setKwsCalled := false, err := none } ∧
    set_kws_list "kw" KwsIn.pynone false =
      { fileCreated := false, fileLines := [], fileRemoved := false,
        setKwsCalled := false, err := none } :=
  ⟨set_kws_list_empty_noop "kw" (KwsIn.dict []) false rfl,
   set_kws_list_empty_noop "kw" (KwsIn.list []) false rfl,
   set_kws_list_empty_noop "kw" (KwsIn.tuple []) true rfl,
   set_kws_list_empty_noop "kw" KwsIn.pynone false rfl⟩

/-- C1: contrary to the claim, the temporary keyword-list file outlives the
call on both failure paths.  With the non-numeric threshold input
`{"test": "bad"}` the validation error propagates before `os.remove`
(line 210) runs, and when the decoder's `set_kws` raises the remove is
likewise never reached: in both outcomes the file was created but not
removed. -/
theorem set_kws_list_leaks_file_on_failure :
    ((set_kws_list "test_kws" (KwsIn.dict [("test", Thresh.nonnum "bad")])
        false).fileCreated = true ∧
     (set_kws_list "test_kws" (KwsIn.dict [("test", Thresh.nonnum "bad")])
        false).fileRemoved = false ∧
     (set_kws_list "test_kws" (KwsIn.dict [("test", Thresh.nonnum "bad")])
        false).err =
       some (KwsErr.validation (kwsErrMsg "bad" "test"))) ∧
    ((set_kws_list "kw1" (KwsIn.dict [("hello world", Thresh.num "1e-20")])
        true).fileCreated = true ∧
     (set_kws_list "kw1" (KwsIn.dict [("hello world", Thresh.num "1e-20")])
        true).fileRemoved = false) :=
  ⟨⟨rfl, rfl, rfl⟩, rfl, rfl⟩

/-- C10: with `use_callbacks` true, `process_audio` always returns `None`,
also on the frame where an utterance ends (when no hypothesis callback is
registered the fetched hypothesis is discarded, not returned). -/
theorem process_audio_returns_none_with_callbacks (s : PS) (buf : Nat)
    (ns fu isp : Bool) (h : Hyp) :
    (s.process_audio buf ns fu true isp h).2.2 = none := by
  rcases s with ⟨sc, hc, st⟩
  cases st <;> cases isp <;> cases sc <;> cases hc <;>
    simp [PS.process_audio, PS.start_utt, PS.end_utt, PS.get_in_speech,
      PS.utt_ended, PS.utt_idle, PS.utt_started]

/-- C2: `get_in_speech` returns the decoder's answer and advances the state
from Idle to Started exactly when the answer is true; and in
`process_audio` the speech-start callback (invoked with no arguments, the
payload-free `cbSpeechStart` event) fires exactly when `get_in_speech`
returned true, the was-idle snapshot taken before the query was true, the
state after the query is Started, `use_callbacks` is true, and a
speech-start callback is registered. -/
theorem speech_start_callback_fires_iff (s : PS) (buf : Nat)
    (ns fu uc isp : Bool) (h : Hyp) :
    ((s.get_in_speech isp).2.2 = isp ∧
      (s.get_in_speech isp).1.utterance_state =
        (if isp && s.utt_idle then UttState.started else s.utterance_state)) ∧
    (Event.cbSpeechStart ∈ (s.process_audio buf ns fu uc isp h).2.1 ↔
      (isp = true ∧
       (if s.utt_ended then s.start_utt else (s, [])).1.utt_idle = true ∧
       (((if s.utt_ended then s.start_utt else (s, [])).1.get_in_speech
          isp).1.utt_started = true) ∧
       uc = true ∧ s.speech_start_callback.isSome = true)) := by
  rcases s with ⟨sc, hc, st⟩
  cases st <;> cases isp <;> cases uc <;> cases sc <;> cases hc <;>
    simp [PS.process_audio, PS.start_utt, PS.end_utt, PS.get_in_speech,
      PS.utt_ended, PS.utt_idle, PS.utt_started]

/-- C3: when the decoder reports no speech and the tracker is Started,
`process_audio` ends the utterance (state Ended), fetches the hypothesis,
invokes the hypothesis callback with it when `use_callbacks` is true and a
callback is registered, and with `use_callbacks` false returns the
hypothesis to the caller without invoking any hypothesis callback. -/
theorem process_audio_utterance_end (s : PS) (buf : Nat) (ns fu uc : Bool)
    (h : Hyp) (hs : s.utt_started = true) :
    (s.process_audio buf ns fu uc false h).1.utterance_state = UttState.ended ∧
    Event.decHyp h ∈ (s.process_audio buf ns fu uc false h).2.1 ∧
    (uc = true → s.hypothesis_callback.isSome = true →
      Event.cbHypothesis h ∈ (s.process_audio buf ns fu uc false h).2.1) ∧
    (uc = false →
      (s.process_audio buf ns fu uc false h).2.2 = h ∧
      ∀ h2, Event.cbHypothesis h2 ∉ (s.process_audio buf ns fu uc false h).2.1) := by
  rcases s with ⟨sc, hc, st⟩
  cases st <;>
    first
      | (simp only [PS.utt_started] at hs; exact absurd hs (by decide))
      | (cases uc <;> cases hc <;>
          simp [PS.process_audio, PS.start_utt, PS.end_utt, PS.get_in_speech,
            PS.utt_ended, PS.utt_idle, PS.utt_started])

/-- C3 witness: a started session with a registered hypothesis callback
fires it at utterance end, and one without callbacks returns the
hypothesis. -/
theorem process_audio_utterance_end_witness :
    (PS.process_audio ⟨none, some 0, UttState.started⟩ 0 false false true false
        (some "hi")).1.utterance_state = UttState.ended ∧
    Event.cbHypothesis (some "hi") ∈
      (PS.process_audio ⟨none, some 0, UttState.started⟩ 0 false false true false
        (some "hi")).2.1 ∧
    (PS.process_audio ⟨none, none, UttState.started⟩ 1 false false false false
        (some "hey")).2.2 = some "hey" :=
  ⟨(process_audio_utterance_end ⟨none, some 0, UttState.started⟩ 0 false false
      true (some "hi") rfl).1,
   (process_audio_utterance_end ⟨none, some 0, UttState.started⟩ 0 false false
      true (some "hi") rfl).2.2.1 rfl rfl,
   ((process_audio_utterance_end ⟨none, none, UttState.started⟩ 1 false false
      false (some "hey") rfl).2.2.2 rfl).1⟩

/-- Helper for C4: the `batch_process` loop with callbacks disabled computes
the last truthy `process_audio` result, defaulting to the accumulator. -/
theorem batch_go_last_truthy (ns fu : Bool) :
    ∀ (bufs : List BufInput) (s : PS) (acc : Hyp),
      (PS.batch_go s ns fu false bufs acc).2.2 =
        ((PS.processResults s ns fu false bufs).filter hypTruthy).getLastD acc := by
  intro bufs
  induction bufs with
  | nil => intro s acc; rfl
  | cons b rest ih =>
    intro s acc
    rcases b with ⟨buf, isp, h⟩
    cases hr : hypTruthy (s.process_audio buf ns fu false isp h).2.2 <;>
      simp only [PS.batch_go, PS.processResults, List.filter_cons, hr, ih,
        Bool.false_eq_true, if_false, if_true, List.getLastD_cons,
        ite_true, ite_false]

/-- C4: `batch_process` with `use_callbacks` false returns the last
non-empty hypothesis produced by the `process_audio` calls across the
buffer sequence (`None` when no call produced a non-empty one); earlier
hypotheses are overwritten, only the final one survives. -/
theorem batch_process_returns_last_hypothesis (s : PS) (bufs : List BufInput)
    (ns fu : Bool) :
    (s.batch_process bufs ns fu false).2.2 =
      specLastNonEmpty (PS.processResults s ns fu false bufs) :=
  batch_go_last_truthy ns fu bufs s none

/-- Helper for C7: the write loop raises no error exactly when every
threshold is numeric. -/
theorem kwsWriteLoop_none_iff (d : List (String × Thresh)) :
    ∀ acc, (kwsWriteLoop d acc).2 = none ↔ ∀ p ∈ d, p.2.isNum = true := by
  induction d with
  | nil => intro acc; simp [kwsWriteLoop]
  | cons p rest ih =>
    rcases p with ⟨w, t⟩
    cases t <;> intro acc <;> simp [kwsWriteLoop, ih, Thresh.isNum]

/-- Helper for C7: the error data returned by the write loop comes from a
non-numeric pair of the mapping. -/
theorem kwsWriteLoop_some_mem (d : List (String × Thresh)) :
    ∀ acc r w, (kwsWriteLoop d acc).2 = some (r, w) →
      (w, Thresh.nonnum r) ∈ d := by
  induction d with
  | nil => intro acc r w hsome; simp [kwsWriteLoop] at hsome
  | cons p rest ih =>
    rcases p with ⟨w0, t⟩
    cases t with
    | num r0 =>
      intro acc r w hsome
      exact List.mem_cons_of_mem _ (ih _ r w hsome)
    | nonnum r0 =>
      intro acc r w hsome
      simp only [kwsWriteLoop, Option.some.injEq, Prod.mk.injEq] at hsome
      rcases hsome with ⟨hr, hw⟩
      rw [← hr, ← hw]
      exact List.mem_cons_self _ _

/-- Helper: a falsy `kws_list` normalizes to the empty mapping. -/
theorem normalize_nil_of_falsy (kws : KwsIn) (hf : kws.truthy = false) :
    kws.normalize = [] := by
  cases kws <;>
    simp_all [KwsIn.truthy, KwsIn.normalize, List.isEmpty_iff, pyDict]

/-- Helper: the outcome of `set_kws_list` on a truthy `kws_list`, by the
result of the write loop. -/
theorem set_kws_list_truthy_eq (name : String) (kws : KwsIn) (b : Bool)
    (ht : kws.truthy = true) :
    set_kws_list name kws b =
      (match kwsWriteLoop kws.normalize [] with
       | (lines, some (r, words)) =>
         { fileCreated := true, fileLines := lines, fileRemoved := false,
           setKwsCalled := false,
           err := some (KwsErr.validation (kwsErrMsg r words)) }
       | (lines, none) =>
         if b then
           { fileCreated := true, fileLines := lines, fileRemoved := false,
             setKwsCalled := true, err := some KwsErr.setKwsFailure }
         else
           { fileCreated := true, fileLines := lines, fileRemoved := true,
             setKwsCalled := true, err := none }) := by
  unfold set_kws_list
  rw [ht]
  rfl

/-- C7: `set_kws_list` raises the `PocketSphinxError` validation error if
and only if some threshold in the normalized keyword spec is non-numeric;
the error message names the offending phrase and its threshold value, and
in that case the decoder's `set_kws` is never called. -/
theorem set_kws_list_validates_thresholds (name : String) (kws : KwsIn)
    (b : Bool) :
    ((∃ p ∈ kws.normalize, p.2.isNum = false) ↔
      ∃ m, (set_kws_list name kws b).err = some (KwsErr.validation m)) ∧
    (∀ m, (set_kws_list name kws b).err = some (KwsErr.validation m) →
      (set_kws_list name kws b).setKwsCalled = false ∧
      ∃ w r, m = kwsErrMsg r w ∧ (w, Thresh.nonnum r) ∈ kws.normalize) := by
  cases htr : kws.truthy with
  | false =>
    have hnil := normalize_nil_of_falsy kws htr
    simp [set_kws_list, htr, hnil]
  | true =>
    rw [set_kws_list_truthy_eq name kws b htr]
    rcases hw : kwsWriteLoop kws.normalize [] with ⟨lines, o⟩
    cases o with
    | some pr =>
      rcases pr with ⟨r, w⟩
      have hmem : (w, Thresh.nonnum r) ∈ kws.normalize :=
        kwsWriteLoop_some_mem kws.normalize [] r w (by rw [hw])
      refine ⟨⟨fun _ => ⟨kwsErrMsg r w, rfl⟩,
        fun _ => ⟨(w, Thresh.nonnum r), hmem, rfl⟩⟩, fun m hm => ?_⟩
      simp only [Option.some.injEq, KwsErr.validation.injEq] at hm
      exact ⟨rfl, w, r, hm.symm, hmem⟩
    | none =>
      have hall := (kwsWriteLoop_none_iff kws.normalize []).mp (by rw [hw])
      cases b with
      | false =>
        refine ⟨⟨fun hex => ?_, fun hex => ?_⟩, fun m hm => by cases hm⟩
        · rcases hex with ⟨p, hp, hnum⟩
          rw [hall p hp] at hnum
          cases hnum
        · rcases hex with ⟨m, hm⟩
          cases hm
      | true =>
        refine ⟨⟨fun hex => ?_, fun hex => ?_⟩, fun m hm => by cases hm⟩
        · rcases hex with ⟨p, hp, hnum⟩
          rw [hall p hp] at hnum
          cases hnum
        · rcases hex with ⟨m, hm⟩
          cases hm

/-- C7 witness: the validation error for a concrete non-numeric threshold
leaves `set_kws` uncalled and the message names the pair. -/
theorem set_kws_list_validates_thresholds_witness :
    (set_kws_list "kw" (KwsIn.dict [("a", Thresh.nonnum "bad")])
      false).setKwsCalled = false ∧
    ∃ w r, kwsErrMsg "bad" "a" = kwsErrMsg r w ∧
      (w, Thresh.nonnum r) ∈ (KwsIn.dict [("a", Thresh.nonnum "bad")]).normalize :=
  (set_kws_list_validates_thresholds "kw"
    (KwsIn.dict [("a", Thresh.nonnum "bad")]) false).2 (kwsErrMsg "bad" "a") rfl
